import Mathlib

/-
Verification development for the pyload hierarchical configuration store
(src/pyload/config/parser.py).  The Python source is shallowly embedded:
classes become structures, in-place mutation becomes explicit state passing,
`raise` becomes `Except.error`.  Repository utilities that are not part of
src/ (pyload.utils.*, pyload.config.types, pyload.utils.struct.InscDict) are
modelled from the spec and marked as such in their doc comments.  Python
standard-library behaviour (io append-mode handles, configparser, builtins)
is modelled from its documented semantics.
-/

namespace PyloadConfig

/-- Modelled from the spec: `pyload.config.types.InputType` is not under
src/.  The Type Registry (spec section 4.1) enumerates the supported value
kinds; the thirteen members below are exactly those referenced by
`convert_map` in src/pyload/config/parser.py. -/
inductive InputType where
  | NA
  | Str
  | Int
  | File
  | Folder
  | Password
  | Bool
  | Float
  | Octal
  | Size
  | Address
  | Bytes
  | StrList
deriving DecidableEq, Repr

/-- Runtime values handled by the configuration store.  Python's dynamic
values are restricted to the shapes the converters can produce or consume:
None, str, int, bool, bytes, float and list-of-str.  IEEE floats are kept
opaque as their decimal text, since no claim involves float arithmetic. -/
inductive Value where
  | none
  | str : String → Value
  | int : Int → Value
  | bool : Bool → Value
  | bytes : String → Value
  | float : String → Value
  | list : List String → Value
deriving DecidableEq, Repr

/-- Errors of the embedding.  `invalidValue`, `alreadyExists` and
`versionMismatch` are the exceptions from pyload.config.exceptions (declared
outside src/; their meaning is fixed by the spec's error taxonomy, section
7).  `keyError`, `valueError` and `typeError` are the Python builtins;
`duplicateSection` is configparser's strict-mode duplicate error. -/
inductive Err where
  | invalidValue
  | alreadyExists
  | versionMismatch
  | keyError
  | valueError
  | typeError
  | duplicateSection
deriving DecidableEq, Repr

/-- Python str helpers.  They are implemented on the character list so that
closed terms compute by kernel reduction (the corresponding String library
functions are compiled by well-founded recursion and do not reduce); each
mirrors the documented behaviour of the Python str method it stands for,
restricted to ASCII, which is all the source ever handles. -/
def pyLower (s : String) : String := String.mk (s.data.map Char.toLower)

def pyUpper (s : String) : String := String.mk (s.data.map Char.toUpper)

def isSpaceChar (c : Char) : Bool :=
  c == ' ' || c == '\t' || c == '\n' || c == '\r'

/-- Python str.strip(): ASCII whitespace removed from both ends. -/
def pyTrim (s : String) : String :=
  String.mk (((s.data.dropWhile isSpaceChar).reverse.dropWhile
    isSpaceChar).reverse)

/-- Split a character list at every occurrence of the separator. -/
def splitChar (sep : Char) : List Char → List (List Char)
  | [] => [[]]
  | c :: rest =>
    if c == sep then [] :: splitChar sep rest
    else
      match splitChar sep rest with
      | [] => [[c]]
      | g :: gs => (c :: g) :: gs

/-- Python str.split(sep) for a one-character separator. -/
def pySplit (s : String) (sep : Char) : List String :=
  (splitChar sep s.data).map String.mk

def isDigitChar (c : Char) : Bool := 48 ≤ c.toNat && c.toNat ≤ 57

def digitsToNatAux : List Char → Nat → Option Nat
  | [], acc => some acc
  | c :: rest, acc =>
    if isDigitChar c then digitsToNatAux rest (acc * 10 + (c.toNat - 48))
    else Option.none

/-- Parse a non-empty all-digit string as a natural number. -/
def strToNat? (s : String) : Option Nat :=
  match s.data with
  | [] => Option.none
  | cs => digitsToNatAux cs 0

def strIsEmpty (s : String) : Bool := s.data.isEmpty

/-- Python `c in s` for a single character. -/
def containsChar (s : String) (c : Char) : Bool :=
  s.data.any (fun d => d == c)

/-- Python str.replace for one-character patterns. -/
def replaceChar (s : String) (a b : Char) : String :=
  String.mk (s.data.map (fun c => if c == a then b else c))

/-- Python repr of a list of strings, used only by `str()` on list values. -/
def pyListRepr (xs : List String) : String :=
  "[" ++ String.intercalate ", " (xs.map (fun s => "'" ++ s ++ "'")) ++ "]"

/-- Modelled from the spec: `pyload.utils.convert.to_str` is not under src/.
Spec section 4.1 makes the string kinds normalize any input to its canonical
text form; this mirrors Python `str()` on our value shapes, except that
bytes are decoded to their text (the documented job of `to_str`). -/
def toStr : Value → String
  | Value.none => "None"
  | Value.str s => s
  | Value.int i => toString i
  | Value.bool b => if b then "True" else "False"
  | Value.bytes s => s
  | Value.float r => r
  | Value.list xs => pyListRepr xs

/-- Python's builtin `str()` (as applied by configparser.read_dict to every
value it stores): identical to `toStr` except on bytes, whose str() is the
bytes repr. -/
def pyStrBuiltin : Value → String
  | Value.bytes s => "b'" ++ s ++ "'"
  | v => toStr v

/-- Python truthiness of a value (`bool(x)`): empty/zero values are falsy.
Opaque float text is compared against the zero spellings. -/
def pyTruthy : Value → Bool
  | Value.none => false
  | Value.str s => !strIsEmpty s
  | Value.int i => !(i == 0)
  | Value.bool b => b
  | Value.bytes s => !strIsEmpty s
  | Value.float r => !(r == "0" || r == "0.0" || r == "-0.0")
  | Value.list xs => !xs.isEmpty

/-- Python `int(string)`: surrounding whitespace stripped, one optional
sign, then decimal digits; anything else is a ValueError. -/
def decIntOf (s : String) : Option Int :=
  match (pyTrim s).data with
  | '-' :: rest => (strToNat? (String.mk rest)).map (fun n => -(Int.ofNat n))
  | '+' :: rest => (strToNat? (String.mk rest)).map Int.ofNat
  | cs => (strToNat? (String.mk cs)).map Int.ofNat

/-- Python's builtin `int()` conversion, the converter of InputType.Int. -/
def pyIntConv : Value → Except Err Value
  | Value.int i => Except.ok (Value.int i)
  | Value.bool b => Except.ok (Value.int (if b then 1 else 0))
  | Value.str s =>
    match decIntOf s with
    | some i => Except.ok (Value.int i)
    | Option.none => Except.error Err.valueError
  | Value.bytes s =>
    match decIntOf s with
    | some i => Except.ok (Value.int i)
    | Option.none => Except.error Err.valueError
  | Value.float r =>
    match decIntOf ((pySplit r '.').headD "") with
    | some i => Except.ok (Value.int i)
    | Option.none => Except.error Err.valueError
  | _ => Except.error Err.typeError

/-- Octal digits of a natural number, as Python `oct` prints them. -/
def natOctal (n : Nat) : String := String.mk (Nat.toDigits 8 n)

/-- Python's builtin `oct()`: integers render as an 0o-prefixed string;
any non-integer argument is a TypeError. -/
def pyOct : Value → Except Err Value
  | Value.int i =>
    Except.ok (Value.str ((if i < 0 then "-0o" else "0o") ++ natOctal i.natAbs))
  | Value.bool b =>
    Except.ok (Value.str ("0o" ++ natOctal (if b then 1 else 0)))
  | _ => Except.error Err.typeError

/-- Decimal-float text check used by the Float converter: optional sign,
digits, optional point and digits. -/
def decFloatOk (s : String) : Bool :=
  match pySplit (match s.data with
    | '-' :: rest => String.mk rest
    | '+' :: rest => String.mk rest
    | _ => s) '.' with
  | [a] => (strToNat? a).isSome
  | [a, b] => ((strToNat? a).isSome || strIsEmpty a)
      && ((strToNat? b).isSome || strIsEmpty b)
      && !(strIsEmpty a && strIsEmpty b)
  | _ => false

/-- Python's builtin `float()`.  The produced IEEE value is kept opaque as
its source text (no claim performs float arithmetic). -/
def pyFloatConv : Value → Except Err Value
  | Value.int i => Except.ok (Value.float (toString i ++ ".0"))
  | Value.bool b => Except.ok (Value.float (if b then "1.0" else "0.0"))
  | Value.float r => Except.ok (Value.float r)
  | Value.str s =>
    if decFloatOk (pyTrim s) then Except.ok (Value.float (pyTrim s))
    else Except.error Err.valueError
  | _ => Except.error Err.typeError

/-- Multiplier of a byte-size unit suffix, uppercased. -/
def sizeFactor : String → Option Nat
  | "" => some 1
  | "B" => some 1
  | "K" => some 1024
  | "KB" => some 1024
  | "M" => some (1024 * 1024)
  | "MB" => some (1024 * 1024)
  | "G" => some (1024 * 1024 * 1024)
  | "GB" => some (1024 * 1024 * 1024)
  | _ => Option.none

/-- Modelled from the spec: `pyload.utils.parse.bytesize` is not under src/.
Spec section 4.1: the byte-size kind parses compound textual forms such as
"10MB" into a canonical integer scalar; unrecognized forms fail. -/
def bytesizeOf : Value → Except Err Value
  | Value.int i => Except.ok (Value.int i)
  | Value.str s =>
    match strToNat? (String.mk ((pyTrim s).data.takeWhile isDigitChar)),
        sizeFactor (pyUpper (pyTrim (String.mk
          ((pyTrim s).data.dropWhile isDigitChar)))) with
    | some n, some f => Except.ok (Value.int (Int.ofNat (n * f)))
    | _, _ => Except.error Err.valueError
  | _ => Except.error Err.typeError

/-- Modelled from the spec: `pyload.utils.fs.fullpath` is not under src/.
Path canonicalization is environment dependent and not observed by any
claim, so it is the identity on strings. -/
def fullpathOf : Value → Except Err Value
  | Value.str s => Except.ok (Value.str s)
  | _ => Except.error Err.typeError

/-- Directory part of a path, as `os.path.dirname` on simple slash-joined
paths (everything before the last separator, empty when there is none). -/
def dirnameOf (s : String) : String :=
  if (pySplit s '/').length ≤ 1 then ""
  else String.intercalate "/" (pySplit s '/').dropLast

/-- Converter of InputType.Folder: `os.path.dirname(fullpath(x))`. -/
def folderOf : Value → Except Err Value
  | Value.str s => Except.ok (Value.str (dirnameOf s))
  | _ => Except.error Err.typeError

/-- Converter of InputType.Address, from `_parse_address` in the source:
the comma is first replaced by a colon; the endpoint/socket parsing that
follows lives in pyload.utils.web (not under src/) and is Modelled from the
spec: "host,port" becomes the canonical "host:port" form. -/
def parseAddress : Value → Except Err Value
  | Value.str s => Except.ok (Value.str (replaceChar s ',' ':'))
  | _ => Except.error Err.typeError

/-- Modelled from the spec: `pyload.utils.convert.to_bytes` is not under
src/; it encodes text to raw bytes (spec: raw-bytes kind). -/
def toBytesOf : Value → Except Err Value
  | Value.str s => Except.ok (Value.bytes s)
  | Value.bytes s => Except.ok (Value.bytes s)
  | _ => Except.error Err.typeError

/-- Modelled from the spec: `pyload.utils.parse.entries` is not under src/.
Spec section 4.1: the string-list kind splits a delimited string into an
ordered sequence of trimmed strings (empty items dropped); a sequence is
kept as is. -/
def entriesOf : Value → Except Err Value
  | Value.str s =>
    Except.ok (Value.list (((pySplit s ',').map pyTrim).filter
      (fun x => !strIsEmpty x)))
  | Value.list xs => Except.ok (Value.list xs)
  | _ => Except.error Err.typeError

/-- The converter dispatch table `convert_map` of the source, one entry per
InputType member. -/
def convertMap : InputType → Value → Except Err Value
  | InputType.NA, x => Except.ok x
  | InputType.Str, x => Except.ok (Value.str (toStr x))
  | InputType.Int, x => pyIntConv x
  | InputType.File, x => fullpathOf x
  | InputType.Folder, x => folderOf x
  | InputType.Password, x => Except.ok (Value.str (toStr x))
  | InputType.Bool, x => Except.ok (Value.bool (pyTruthy x))
  | InputType.Float, x => pyFloatConv x
  | InputType.Octal, x => pyOct x
  | InputType.Size, x => bytesizeOf x
  | InputType.Address, x => parseAddress x
  | InputType.Bytes, x => toBytesOf x
  | InputType.StrList, x => entriesOf x

/-- ConfigOption._normalize_value: None passes through untouched, any other
value goes through the type's converter. -/
def normalizeValue (ty : InputType) (v : Value) : Except Err Value :=
  match v with
  | Value.none => Except.ok Value.none
  | x => convertMap ty x

/-- Python `==` between stored values.  bool is an int subclass, so
int/bool compare numerically.  Cross-type numeric equality with floats is
not modelled (floats are opaque text); no claim exercises it. -/
def pyEq : Value → Value → Bool
  | Value.none, Value.none => true
  | Value.str x, Value.str y => x == y
  | Value.bytes x, Value.bytes y => x == y
  | Value.int x, Value.int y => x == y
  | Value.bool x, Value.bool y => x == y
  | Value.int x, Value.bool y => x == (if y then (1 : Int) else 0)
  | Value.bool x, Value.int y => (if x then (1 : Int) else 0) == y
  | Value.float x, Value.float y => x == y
  | Value.list xs, Value.list ys => xs == ys
  | _, _ => false

/-- Python `v in tuple` membership, via `==` on each element. -/
def pyMem (v : Value) (xs : List Value) : Bool := xs.any (fun w => pyEq v w)

/-- State of a ConfigOption (src/pyload/config/parser.py, class
ConfigOption).  The `parser` back-reference of the source is the ambient
parser state and is not stored in the option. -/
structure ConfigOption where
  type : InputType
  value : Value
  default : Value
  allowedValues : List Value
  label : String
  desc : String
deriving DecidableEq, Repr

/-- ConfigOption.__init__ (via _set_type, _set_value, _set_allowed,
_set_info).  A missing/falsy input_type falls back to DEFAULT_TYPE = Str;
the `input_type in InputType` membership test always succeeds here because
the argument is typed.  Normalization failures propagate, first from the
initial value, then from the allowed list. -/
def ConfigOption.make (value : Value) (label desc : Option String)
    (allowed : List Value) (inputType : Option InputType) :
    Except Err ConfigOption :=
  let ty := inputType.getD InputType.Str
  match normalizeValue ty value with
  | Except.error e => Except.error e
  | Except.ok v =>
    match allowed.mapM (normalizeValue ty) with
    | Except.error e => Except.error e
    | Except.ok als =>
      Except.ok { type := ty, value := v, default := v, allowedValues := als,
                  label := label.getD "", desc := desc.getD "" }

/-- ConfigOption.set (source lines 111-119).  The returned pair is the
option object after the call and whether `self.parser.store()` was invoked.
An error return models a raise: it happens before any assignment, so the
caller's option is untouched and no store occurs. -/
def ConfigOption.set (o : ConfigOption) (value : Value) (store : Bool) :
    Except Err (ConfigOption × Bool) :=
  match normalizeValue o.type value with
  | Except.error e => Except.error e
  | Except.ok norm =>
    if !o.allowedValues.isEmpty && !pyMem norm o.allowedValues then
      Except.error Err.invalidValue
    else if pyEq o.value norm then Except.ok (o, false)
    else Except.ok ({ o with value := norm }, store)

/-- ConfigOption.reset. -/
def ConfigOption.reset (o : ConfigOption) : ConfigOption :=
  { o with value := o.default }

/-- Label and description of a ConfigSection. -/
structure SectionInfo where
  label : String
  desc : String
deriving DecidableEq, Repr

/-- An entry of a section: the Option/Section tagged union.  A section is
its metadata together with its ordered (name, entry) children. -/
inductive Entry where
  | opt : ConfigOption → Entry
  | sec : SectionInfo → List (String × Entry) → Entry

/-- Python str.strip of ASCII whitespace, then str.capitalize (first
character uppercased, the rest lowercased), as used for default labels. -/
def pyCapitalize (s : String) : String :=
  match (pyTrim s).data with
  | [] => ""
  | c :: cs => String.mk (c.toUpper :: cs.map Char.toLower)

/-- Modelled from the spec: InscDict (pyload.utils.struct) is not under
src/.  Spec sections 2-3: an insertion-ordered mapping whose keys compare
case-insensitively, retaining the original-case names.  Lookup finds the
first entry whose lowercased key matches. -/
def lookupLower (entries : List (String × Entry)) (name : String) :
    Option (String × Entry) :=
  entries.find? (fun p => pyLower p.1 == pyLower name)

/-- InscDict key-membership test, as `name.lower() in self.lowerkeys()`. -/
def hasKeyCI (entries : List (String × Entry)) (name : String) : Bool :=
  (lookupLower entries name).isSome

/-- Modelled from the spec: InscDict __setitem__.  A case-insensitive match
is replaced in place (keeping the stored key, which models in-place object
mutation); otherwise the pair is appended, preserving insertion order. -/
def setItemCI (entries : List (String × Entry)) (name : String) (e : Entry) :
    List (String × Entry) :=
  match entries with
  | [] => [(name, e)]
  | (k, v) :: rest =>
    if pyLower k == pyLower name then (k, e) :: rest
    else (k, v) :: setItemCI rest name e

/-- Config seed descriptions accepted by ConfigSection.update /
_to_configentry: an already-built entry is adopted as is, otherwise the
tagged tuple ('section', config, label, desc) or (tag, value, label, desc,
allowed_values, input_type) describes the entry to construct. -/
inductive EntrySpec where
  | adopt : Entry → EntrySpec
  | section : List (String × EntrySpec) → Option String → Option String →
      EntrySpec
  | option : Value → Option String → Option String → List Value →
      Option InputType → EntrySpec

/-- InscDict.update with a list of built pairs: sequential __setitem__. -/
def updateAll (entries pairs : List (String × Entry)) :
    List (String × Entry) :=
  pairs.foldl (fun acc p => setItemCI acc p.1 p.2) entries

mutual

/-- ConfigSection._to_configentry: build one entry from its spec.  Nested
sections recursively run ConfigSection.__init__ on their config. -/
def buildEntry : EntrySpec → Except Err Entry
  | EntrySpec.adopt e => Except.ok e
  | EntrySpec.option v l d a t =>
    match ConfigOption.make v l d a t with
    | Except.error e => Except.error e
    | Except.ok o => Except.ok (Entry.opt o)
  | EntrySpec.section cfg l d =>
    match buildPairs cfg with
    | Except.error e => Except.error e
    | Except.ok ps =>
      Except.ok (Entry.sec { label := l.getD "", desc := d.getD "" }
        (updateAll [] ps))

/-- The list comprehension inside ConfigSection.update: every spec is built
(first failure propagates) before the InscDict is updated. -/
def buildPairs : List (String × EntrySpec) →
    Except Err (List (String × Entry))
  | [] => Except.ok []
  | (n, sp) :: rest =>
    match buildEntry sp with
    | Except.error e => Except.error e
    | Except.ok e =>
      match buildPairs rest with
      | Except.error e2 => Except.error e2
      | Except.ok es => Except.ok ((n, e) :: es)

end

/-- ConfigSection.__init__ run on a seed config: start from an empty
mapping and update it with the built pairs. -/
def buildConfig (cfg : List (String × EntrySpec)) :
    Except Err (List (String × Entry)) :=
  match buildPairs cfg with
  | Except.error e => Except.error e
  | Except.ok ps => Except.ok (updateAll [] ps)

/-- ConfigSection.add_option (source lines 201-212), on the entries of the
receiving section.  Note: unlike add_section, there is no separator check
on the name.  Insertion happens here; the `store` decision is taken by the
state-level wrapper. -/
def ConfigSection.addOption (entries : List (String × Entry)) (name : String)
    (value : Value) (label desc : Option String) (allowed : List Value)
    (inputType : Option InputType) : Except Err (List (String × Entry)) :=
  if hasKeyCI entries name then Except.error Err.alreadyExists
  else
    let lab := label.getD (pyCapitalize name)
    match ConfigOption.make value (some lab) desc allowed inputType with
    | Except.error e => Except.error e
    | Except.ok o => Except.ok (setItemCI entries name (Entry.opt o))

/-- ConfigSection.add_section (source lines 187-199), on the entries of the
receiving section: first the SECTION_SEPARATOR check, then the duplicate
check, then construction of the child section from its seed config. -/
def ConfigSection.addSection (entries : List (String × Entry)) (name : String)
    (config : List (String × EntrySpec)) (label desc : Option String) :
    Except Err (List (String × Entry)) :=
  if containsChar name ':' then Except.error Err.invalidValue
  else if hasKeyCI entries name then Except.error Err.alreadyExists
  else
    let lab := label.getD (pyCapitalize name)
    match buildConfig config with
    | Except.error e => Except.error e
    | Except.ok sub =>
      Except.ok (setItemCI entries name
        (Entry.sec { label := lab, desc := desc.getD "" } sub))

/-- One serialization of the tree as configparser writes it: the DEFAULT
block's `version` key (absent when a hand-written file lacks it) and the
named blocks, each an ordered list of (key, value) pairs.  A None value is
a bare key (allow_no_value). -/
structure Ser where
  version : Option String
  blocks : List (String × List (String × Option String))
deriving DecidableEq, Repr

/-- File contents of the modelled filesystem: the backing file is only ever
written through configparser.write, so its content is the list of complete
serializations appended so far (the empty list is the empty file). -/
def FileData := List Ser
deriving instance DecidableEq, Repr for FileData

/-- Association-list read. -/
def readAssoc : List (String × List Ser) → String → Option (List Ser)
  | [], _ => Option.none
  | (q, d) :: rest, p => if q == p then some d else readAssoc rest p

/-- Association-list write: replace in place or append. -/
def writeAssoc : List (String × List Ser) → String → List Ser →
    List (String × List Ser)
  | [], p, c => [(p, c)]
  | (q, d) :: rest, p, c =>
    if q == p then (q, c) :: rest else (q, d) :: writeAssoc rest p c

/-- Association-list removal of a path. -/
def eraseAssoc : List (String × List Ser) → String → List (String × List Ser)
  | [], _ => []
  | (q, d) :: rest, p =>
    if q == p then eraseAssoc rest p else (q, d) :: eraseAssoc rest p

/-- The filesystem: a mapping from paths to file contents. -/
structure FS where
  files : List (String × List Ser)

def FS.read (fs : FS) (p : String) : Option (List Ser) := readAssoc fs.files p

def FS.writeFile (fs : FS) (p : String) (c : List Ser) : FS :=
  ⟨writeAssoc fs.files p c⟩

def FS.erase (fs : FS) (p : String) : FS := ⟨eraseAssoc fs.files p⟩

/-- os.rename on POSIX: the destination is replaced if present.  A missing
source would raise OSError; in every modelled trace the source exists (it
was just opened), so the total fallback is unreachable. -/
def FS.rename (fs : FS) (src dst : String) : FS :=
  match fs.read src with
  | Option.none => fs
  | some c => (fs.erase src).writeFile dst c

/-- An open file handle: the path it was opened on and its read position,
counted in whole serializations. -/
structure Handle where
  path : String
  pos : Nat
deriving DecidableEq, Repr

/-- io.open(path, mode='ab+'): the file is created when absent, and CPython
explicitly seeks to the end of the file when opening in append mode
(Modules/_io/fileio.c), so the initial read position equals the current
length.  O_APPEND makes every later write go to the end as well. -/
def FS.openAb (fs : FS) (p : String) : FS × Handle :=
  match fs.read p with
  | some c => (fs, ⟨p, c.length⟩)
  | Option.none => (fs.writeFile p [], ⟨p, 0⟩)

/-- Reading the handle to exhaustion (configparser.read_file iterates the
handle): yields everything from the current position on and leaves the
position at the end. -/
def Handle.readToEnd (h : Handle) (fs : FS) : List Ser × Handle :=
  (((fs.read h.path).getD []).drop h.pos,
    ⟨h.path, ((fs.read h.path).getD []).length⟩)

/-- configparser.read_file over a stream of already-structured
serializations.  The parser is strict (the default): a second serialization
in the same stream repeats the section headers of the first, which raises
DuplicateSectionError. -/
def parseStream : List Ser → Except Err (Option Ser)
  | [] => Except.ok Option.none
  | [s] => Except.ok (some s)
  | _ => Except.error Err.duplicateSection

/-- semver.parse_version_info (third party): MAJOR.MINOR.PATCH with numeric
components.  Prerelease/build tags and the leading-zero restriction are not
modelled; malformed strings fail with the ValueError the source would
surface. -/
def parseVersionInfo (s : String) : Except Err (Nat × Nat × Nat) :=
  match (pySplit s '.').map strToNat? with
  | [some a, some b, some c] => Except.ok (a, b, c)
  | _ => Except.error Err.valueError

/-- semver.format_version on a parsed triple. -/
def formatVersion (v : Nat × Nat × Nat) : String :=
  toString v.1 ++ "." ++ toString v.2.1 ++ "." ++ toString v.2.2

/-- ConfigParser._check_version (source lines 285-290): a falsy (absent or
empty) version raises VersionMismatchError; a malformed one raises the
semver ValueError; otherwise only the (major, minor) components are
compared. -/
def checkVersion (vinfo : Nat × Nat × Nat) (version : Option String) :
    Except Err Unit :=
  match version with
  | Option.none => Except.error Err.versionMismatch
  | some s =>
    if s == "" then Except.error Err.versionMismatch
    else
      match parseVersionInfo s with
      | Except.error e => Except.error e
      | Except.ok vi =>
        if vi.1 == vinfo.1 && vi.2.1 == vinfo.2.1 then Except.ok ()
        else Except.error Err.versionMismatch

/-- ConfigParser._to_filevalue combined with the str() that
configparser.read_dict applies to every stored value: list values (the only
iterable Value; pyload.utils.check.isiterable is not under src/ and is
Modelled from the spec, which serializes exactly the list kind
comma-joined) are joined with ','; None survives as a bare key; all other
scalars go through str(). -/
def toFilevalue (v : Value) : Option String :=
  match v with
  | Value.list xs => some (String.intercalate "," xs)
  | Value.none => Option.none
  | x => some (pyStrBuiltin x)

/-- OrderedDict assignment inside one block: replace in place or append. -/
def odSetKV (block : List (String × Option String)) (k : String)
    (v : Option String) : List (String × Option String) :=
  match block with
  | [] => [(k, v)]
  | (k0, v0) :: rest =>
    if k0 == k then (k0, v) :: rest else (k0, v0) :: odSetKV rest k v

/-- `config.setdefault(section_name, OrderedDict())[name] = fv`: create the
block at the end when absent, then assign the key inside it. -/
def odSetIn (blocks : List (String × List (String × Option String)))
    (sec k : String) (v : Option String) :
    List (String × List (String × Option String)) :=
  match blocks with
  | [] => [(sec, [(k, v)])]
  | (s0, b0) :: rest =>
    if s0 == sec then (s0, odSetKV b0 k v) :: rest
    else (s0, b0) :: odSetIn rest sec k v

/-- OrderedDict assignment of a whole block. -/
def odSetBlock (blocks : List (String × List (String × Option String)))
    (sec : String) (b : List (String × Option String)) :
    List (String × List (String × Option String)) :=
  match blocks with
  | [] => [(sec, b)]
  | (s0, b0) :: rest =>
    if s0 == sec then (s0, b) :: rest else (s0, b0) :: odSetBlock rest sec b

/-- `config.update(fc)` between block maps. -/
def odUpdateAll (blocks fc : List (String × List (String × Option String))) :
    List (String × List (String × Option String)) :=
  fc.foldl (fun acc p => odSetBlock acc p.1 p.2) blocks

/-- ConfigParser._to_fileconfig: flatten one named section into blocks.
Iteration is over loweritems(), so serialized names are lowercased; nested
sections extend the header with the ':' separator; options land in this
section's own block, created on first need. -/
def sectionBlocks : String → List (String × Entry) →
    List (String × List (String × Option String)) →
    List (String × List (String × Option String))
  | _, [], acc => acc
  | secName, (n, Entry.opt o) :: rest, acc =>
    sectionBlocks secName rest
      (odSetIn acc secName (pyLower n) (toFilevalue o.value))
  | secName, (n, Entry.sec _ sub) :: rest, acc =>
    sectionBlocks secName rest
      (odUpdateAll acc (sectionBlocks (secName ++ ":" ++ pyLower n) sub []))

/-- ConfigParser._gen_fileconfig: the root's '' block is created first,
root options are assigned into it, and each top-level section is flattened
under its own lowercased name. -/
def rootBlocks : List (String × Entry) →
    List (String × List (String × Option String)) →
    List (String × List (String × Option String))
  | [], acc => acc
  | (n, Entry.opt o) :: rest, acc =>
    rootBlocks rest (odSetIn acc "" (pyLower n) (toFilevalue o.value))
  | (n, Entry.sec _ sub) :: rest, acc =>
    rootBlocks rest (odUpdateAll acc (sectionBlocks (pyLower n) sub []))

def genBlocks (tree : List (String × Entry)) :
    List (String × List (String × Option String)) :=
  rootBlocks tree [("", [])]

/-- The whole state of a ConfigParser: the root section's entries, the
resolved path, the compiled-in version (string and parsed triple), the open
handle and the filesystem it lives in.  The logger is not modelled (it only
receives messages). -/
structure PState where
  tree : List (String × Entry)
  path : String
  version : String
  vinfo : Nat × Nat × Nat
  fp : Handle
  fs : FS

/-- Content of the backing file the handle is open on. -/
def PState.fileContent (st : PState) : List Ser :=
  (st.fs.read st.fp.path).getD []

/-- ConfigParser.store (source lines 353-357): serialize the whole tree
with the compiled-in version as a DEFAULT value and write it through the
append-mode handle — the write lands after the existing content; nothing
truncates the file.  (The source targets Python 2 and 3 via the future
library; the text write onto the binary handle is the Python 2 path, where
it succeeds.  Under Python 3 configparser.write would reject the binary
handle outright, which would only break the persistence claims harder.) -/
def PState.store (st : PState) : PState :=
  let c := st.fileContent ++ [{ version := some st.version,
                                blocks := genBlocks st.tree }]
  { st with fs := st.fs.writeFile st.fp.path c,
            fp := { st.fp with pos := c.length } }

/-- Resolve the entries of the section at a path below the given entries
(the Python caller simply holds a reference to that section object). -/
def entriesAt (entries : List (String × Entry)) : List String →
    Option (List (String × Entry))
  | [] => some entries
  | p :: ps =>
    match lookupLower entries p with
    | some (_, Entry.sec _ sub) => entriesAt sub ps
    | _ => Option.none

/-- Apply an update to the entries of the section at a path, rebuilding the
spine (this is how in-place mutation of a child section object shows up in
the immutable tree). -/
def modifyEntries (entries : List (String × Entry)) (path : List String)
    (f : List (String × Entry) → Except Err (List (String × Entry))) :
    Except Err (List (String × Entry)) :=
  match path with
  | [] => f entries
  | p :: ps =>
    match lookupLower entries p with
    | some (k, Entry.sec info sub) =>
      match modifyEntries sub ps f with
      | Except.error e => Except.error e
      | Except.ok sub' => Except.ok (setItemCI entries k (Entry.sec info sub'))
    | some (_, Entry.opt _) => Except.error Err.invalidValue
    | Option.none => Except.error Err.keyError

/-- ConfigSection.add_option at the section addressed by `path`, followed
by the source's `if store: self.parser.store()`. -/
def PState.addOptionAt (st : PState) (path : List String) (name : String)
    (value : Value) (label desc : Option String) (allowed : List Value)
    (inputType : Option InputType) (store : Bool) : Except Err PState :=
  match modifyEntries st.tree path
      (fun es => ConfigSection.addOption es name value label desc allowed
        inputType) with
  | Except.error e => Except.error e
  | Except.ok tree' =>
    let st' := { st with tree := tree' }
    if store then Except.ok st'.store else Except.ok st'

/-- ConfigSection.add_section at the section addressed by `path`.  On the
root (empty path) the ConfigParser override first refuses the reserved
DEFAULT and self section names (source lines 305-311).  The source decides
persistence by `if store or (store is None and config)`. -/
def PState.addSectionAt (st : PState) (path : List String) (name : String)
    (config : List (String × EntrySpec)) (label desc : Option String)
    (store : Option Bool) : Except Err PState :=
  if path.isEmpty && (pyLower name == "default" || pyLower name == "") then
    Except.error Err.invalidValue
  else
    match modifyEntries st.tree path
        (fun es => ConfigSection.addSection es name config label desc) with
    | Except.error e => Except.error e
    | Except.ok tree' =>
      let st' := { st with tree := tree' }
      if store.getD false || (store.isNone && !config.isEmpty) then
        Except.ok st'.store
      else Except.ok st'

/-- ConfigSection.set at the section addressed by `path`: __getitem__ (a
missing name is a KeyError), then the entry's set.  Calling set on a child
that is itself a section passes too few arguments and is a TypeError.  When
the option requested persistence, the parser's store runs. -/
def PState.setOptionAt (st : PState) (path : List String) (name : String)
    (value : Value) (store : Bool) : Except Err PState :=
  match (entriesAt st.tree path).bind (fun es => lookupLower es name) with
  | Option.none => Except.error Err.keyError
  | some (_, Entry.sec _ _) => Except.error Err.typeError
  | some (k, Entry.opt o) =>
    match ConfigOption.set o value store with
    | Except.error e => Except.error e
    | Except.ok (o', doStore) =>
      match modifyEntries st.tree path
          (fun es => Except.ok (setItemCI es k (Entry.opt o'))) with
      | Except.error e => Except.error e
      | Except.ok tree' =>
        let st' := { st with tree := tree' }
        if doStore then Except.ok st'.store else Except.ok st'

/-- ConfigSection.get on an option: the stored value (None when the name is
absent or names a section). -/
def PState.getAt (st : PState) (path : List String) (name : String) :
    Option Value :=
  match (entriesAt st.tree path).bind (fun es => lookupLower es name) with
  | some (_, Entry.opt o) => some o.value
  | _ => Option.none

/-- ConfigParser._make_options (source lines 298-303): replay the keys of
one parsed block onto the section.  `section.set(option_name, option_value)`
is tried first — with the persist flag left at its default True — and only
a KeyError (unknown name) falls back to `add_option(..., store=False)`. -/
def ConfigParser.makeOptions : PState → List String →
    List (String × Option String) → Except Err PState
  | st, _, [] => Except.ok st
  | st, path, (name, v) :: rest =>
    let raw := match v with
      | some s => Value.str s
      | Option.none => Value.none
    match (entriesAt st.tree path).bind (fun es => lookupLower es name) with
    | Option.none =>
      match st.addOptionAt path name raw Option.none Option.none [] Option.none
          false with
      | Except.error e => Except.error e
      | Except.ok st' => ConfigParser.makeOptions st' path rest
    | some _ =>
      match st.setOptionAt path name raw true with
      | Except.error e => Except.error e
      | Except.ok st' => ConfigParser.makeOptions st' path rest

/-- The creation loop of _make_sections once a name was missing: every
remaining component is added with store=False. -/
def addChain : PState → List String → List String →
    Except Err (PState × List String)
  | st, path, [] => Except.ok (st, path)
  | st, path, n :: rest =>
    match st.addSectionAt path n [] Option.none Option.none (some false) with
    | Except.error e => Except.error e
    | Except.ok st' => addChain st' (path ++ [n]) rest

/-- ConfigParser._make_sections (source lines 273-283): walk the
':'-separated components from the root with get_section (an existing option
of that name is the wrong variant: InvalidValueError), switching to
creation on the first KeyError. -/
def makeSections : PState → List String → List String →
    Except Err (PState × List String)
  | st, path, [] => Except.ok (st, path)
  | st, path, n :: rest =>
    match (entriesAt st.tree path).bind (fun es => lookupLower es n) with
    | some (_, Entry.sec _ _) => makeSections st (path ++ [n]) rest
    | some (_, Entry.opt _) => Except.error Err.invalidValue
    | Option.none => addChain st path (n :: rest)

/-- The per-section loop of ConfigParser.retrieve: resolve or create each
block's section path, then replay its keys. -/
def ConfigParser.retrieveBlocks : PState →
    List (String × List (String × Option String)) → Except Err PState
  | st, [] => Except.ok st
  | st, (secId, items) :: rest =>
    match makeSections st [] (pySplit secId ':') with
    | Except.error e => Except.error e
    | Except.ok (st1, path) =>
      match ConfigParser.makeOptions st1 path items with
      | Except.error e => Except.error e
      | Except.ok st2 => ConfigParser.retrieveBlocks st2 rest

/-- ConfigParser.retrieve (source lines 313-324): read the handle from its
current position, parse, check the version, then replay the '' block onto
the root and every named block onto its section. -/
def ConfigParser.retrieve (st : PState) : Except Err PState :=
  match parseStream (st.fp.readToEnd st.fs).1 with
  | Except.error e => Except.error e
  | Except.ok parsed =>
    match checkVersion st.vinfo (parsed.bind Ser.version) with
    | Except.error e => Except.error e
    | Except.ok _ =>
      match ConfigParser.makeOptions { st with fp := (st.fp.readToEnd st.fs).2 }
          [] (((((parsed.map Ser.blocks).getD []).find?
            (fun b => b.1 == "")).map Prod.snd).getD []) with
      | Except.error e => Except.error e
      | Except.ok st2 =>
        ConfigParser.retrieveBlocks st2
          (((parsed.map Ser.blocks).getD []).filter (fun b => !(b.1 == "")))

/-- ConfigParser._retrieve_fileconfig (source lines 250-263): retrieve,
catching VersionMismatchError by archiving the file under <path>.old and
reopening a fresh one, and catching every other exception by logging it.
In every reachable state the handle's read position is already at the end
of the file, so a failing retrieve has not yet mutated the tree and
resuming from the pre-call state is exact. -/
def ConfigParser.retrieveFileconfig (st : PState) : PState :=
  match ConfigParser.retrieve st with
  | Except.ok st' => st'
  | Except.error Err.versionMismatch =>
    { st with
      fs := ((st.fs.rename st.path (st.path ++ ".old")).openAb st.path).1,
      fp := ((st.fs.rename st.path (st.path ++ ".old")).openAb st.path).2 }
  | Except.error _ => st

/-- ConfigParser.__init__ (source lines 230-244): resolve the path (the
fullpath call is the identity in this model, so `self.path` coincides with
the name the handle is opened on), parse the compiled-in version — outside
any try, so a bad version raises to the caller — open the backing file in
append mode, seed the root section from the caller's config, and run
_retrieve_fileconfig. -/
def ConfigParser.init (fs0 : FS) (filename : String)
    (config : List (String × EntrySpec)) (version : String) :
    Except Err PState :=
  match parseVersionInfo version with
  | Except.error e => Except.error e
  | Except.ok vi =>
    let pr := fs0.openAb filename
    match buildConfig config with
    | Except.error e => Except.error e
    | Except.ok tree =>
      Except.ok (ConfigParser.retrieveFileconfig
        { tree := tree, path := filename, version := formatVersion vi,
          vinfo := vi, fp := pr.2, fs := pr.1 })

/-- The serialization one store() call writes for a given state. -/
def serOf (st : PState) : Ser :=
  { version := some st.version, blocks := genBlocks st.tree }

/-- A throwaway parser state, used only as the fallback of `okD`. -/
def dummySt : PState :=
  { tree := [], path := "", version := "", vinfo := (0, 0, 0),
    fp := ⟨"", 0⟩, fs := ⟨[]⟩ }

/-- Extract the state of a successful operation (fallback never reached in
the concrete scenarios below, as the accompanying isOkB conjuncts show). -/
def okD (e : Except Err PState) : PState :=
  match e with
  | Except.ok s => s
  | Except.error _ => dummySt

def isOkB (e : Except Err PState) : Bool :=
  match e with
  | Except.ok _ => true
  | Except.error _ => false

/-- Round-trip scenario: a parser seeded with one Str option `mode`
defaulting to "fast". -/
def c1Seed : List (String × EntrySpec) :=
  [("mode", EntrySpec.option (Value.str "fast") Option.none Option.none []
    Option.none)]

/-- Fresh parser on an empty filesystem. -/
def c1St1 : PState := okD (ConfigParser.init ⟨[]⟩ "cfg" c1Seed "2.0.0")

/-- The option is set to "slow" without persisting... -/
def c1St2 : PState := okD (c1St1.setOptionAt [] "mode" (Value.str "slow") false)

/-- ...and then store() writes the whole tree to the file. -/
def c1St3 : PState := c1St2.store

/-- Loading the same file into a fresh ConfigParser with the same seed. -/
def c1St4 : PState := okD (ConfigParser.init c1St3.fs "cfg" c1Seed "2.0.0")

/-- A file whose declared version differs from the compiled-in 2.0.0 only
in the patch component. -/
def c2Fs : FS := ⟨[("cfg", [{ version := some "2.0.1", blocks := [] }])]⟩

/-- Construction of a parser (no seed) over that file. -/
def c2St : PState := okD (ConfigParser.init c2Fs "cfg" [] "2.0.0")

/-- Store-twice scenario: a parser seeded with one option. -/
def c3St : PState := okD (ConfigParser.init ⟨[]⟩ "app" c1Seed "2.0.0")

/-- An option guarded by an allow-list, currently at "fast". -/
def c4Opt : ConfigOption :=
  { type := InputType.Str, value := Value.str "fast",
    default := Value.str "fast",
    allowedValues := [Value.str "fast", Value.str "slow"],
    label := "", desc := "" }

/-- Entries holding one option named "A:b" (insertable via add_option,
which performs no separator check). -/
def c7Entries : List (String × Entry) :=
  [("A:b", Entry.opt ⟨InputType.Str, Value.str "x", Value.str "x", [],
    "A:b", ""⟩)]

/-- Entries holding one option named "Foo". -/
def c7CleanEntries : List (String × Entry) :=
  [("Foo", Entry.opt ⟨InputType.Str, Value.str "x", Value.str "x", [],
    "Foo", ""⟩)]

/-- A parser state with an empty backing file, used to count store calls. -/
def c8St : PState :=
  { tree := [], path := "app", version := "2.0.0", vinfo := (2, 0, 0),
    fp := ⟨"app", 0⟩, fs := ⟨[("app", [])]⟩ }

/-- A non-empty seed config for add_section. -/
def c8Cfg : List (String × EntrySpec) :=
  [("proxy", EntrySpec.option (Value.str "") Option.none Option.none []
    Option.none)]

/-- A parser state with a registered Int option `timeout` at 20 and an
empty backing file. -/
def c10St : PState :=
  { tree := [("timeout", Entry.opt ⟨InputType.Int, Value.int 20,
      Value.int 20, [], "", ""⟩)],
    path := "app", version := "2.0.0", vinfo := (2, 0, 0),
    fp := ⟨"app", 0⟩, fs := ⟨[("app", [])]⟩ }

/-- The timeout option after replaying the file value "30". -/
def c10Entry1 : Entry :=
  Entry.opt ⟨InputType.Int, Value.int 30, Value.int 20, [], "", ""⟩

/-- The option the unknown-key fallback registers for ("retries", "30"). -/
def c10Entry2 : Entry :=
  Entry.opt ⟨InputType.Str, Value.str "30", Value.str "30", [], "Retries", ""⟩

/-- A filesystem whose file at "cfg" holds garbage: two concatenated
serializations (a strict configparser would refuse them) and a wild
version. -/
def c9Fs : FS :=
  ⟨[("cfg", [{ version := Option.none, blocks := [("", [("junk", some "x")])] },
             { version := some "9.9.9", blocks := [] }])]⟩

/-- The tree built from c1Seed. -/
def c1Tree : List (String × Entry) :=
  [("mode", Entry.opt ⟨InputType.Str, Value.str "fast", Value.str "fast", [],
    "", ""⟩)]

theorem readAssoc_write_same (l : List (String × List Ser)) (p : String)
    (c : List Ser) : readAssoc (writeAssoc l p c) p = some c := by
  induction l with
  | nil => simp [writeAssoc, readAssoc]
  | cons hd tl ih =>
    obtain ⟨q, d⟩ := hd
    by_cases h : q = p
    · subst h; simp [writeAssoc, readAssoc]
    · simp [writeAssoc, readAssoc, h, ih]

theorem readAssoc_write_ne (l : List (String × List Ser)) (p q : String)
    (c : List Ser) (h : q ≠ p) :
    readAssoc (writeAssoc l p c) q = readAssoc l q := by
  have hpq : ¬p = q := fun hh => h (Eq.symm hh)
  induction l with
  | nil => simp [writeAssoc, readAssoc, hpq]
  | cons hd tl ih =>
    obtain ⟨r, d⟩ := hd
    by_cases h1 : r = p
    · subst h1
      simp [writeAssoc, readAssoc, hpq]
    · simp [writeAssoc, readAssoc, h1, ih]

theorem readAssoc_erase_same (l : List (String × List Ser)) (p : String) :
    readAssoc (eraseAssoc l p) p = Option.none := by
  induction l with
  | nil => simp [eraseAssoc, readAssoc]
  | cons hd tl ih =>
    obtain ⟨q, d⟩ := hd
    by_cases h : q = p
    · subst h; simp [eraseAssoc, ih]
    · simp [eraseAssoc, readAssoc, h, ih]

theorem eraseAssoc_write_same (l : List (String × List Ser)) (p : String)
    (c : List Ser) : eraseAssoc (writeAssoc l p c) p = eraseAssoc l p := by
  induction l with
  | nil => simp [writeAssoc, eraseAssoc]
  | cons hd tl ih =>
    obtain ⟨q, d⟩ := hd
    by_cases h : q = p
    · subst h; simp [writeAssoc, eraseAssoc]
    · simp [writeAssoc, eraseAssoc, h, ih]

theorem append_old_ne (s : String) : s ++ ".old" ≠ s := by
  intro h
  have h2 : (s ++ ".old").length = s.length := by rw [h]
  rw [String.length_append] at h2
  have h3 : String.length ".old" = 4 := rfl
  omega

theorem FS.read_write_same (fs : FS) (p : String) (c : List Ser) :
    (fs.writeFile p c).read p = some c :=
  readAssoc_write_same fs.files p c

theorem FS.read_write_ne (fs : FS) (p q : String) (c : List Ser)
    (h : q ≠ p) : (fs.writeFile p c).read q = fs.read q :=
  readAssoc_write_ne fs.files p q c h

theorem FS.read_erase_same (fs : FS) (p : String) :
    (fs.erase p).read p = Option.none :=
  readAssoc_erase_same fs.files p

theorem FS.erase_write_same (fs : FS) (p : String) (c : List Ser) :
    (fs.writeFile p c).erase p = fs.erase p := by
  show FS.mk (eraseAssoc (writeAssoc fs.files p c) p) = FS.mk (eraseAssoc fs.files p)
  rw [eraseAssoc_write_same]

/-- The fields a store call leaves untouched, and the one thing it does:
append one serialization of the current tree to the backing file. -/
theorem store_fileContent (st : PState) :
    st.store.fileContent = st.fileContent ++
      [{ version := some st.version, blocks := genBlocks st.tree }] := by
  show (FS.read _ _).getD [] = _
  unfold PState.store
  simp only [FS.read, FS.writeFile]
  rw [readAssoc_write_same]
  rfl

theorem store_version (st : PState) : st.store.version = st.version := rfl

theorem store_tree (st : PState) : st.store.tree = st.tree := rfl

theorem store_fpPath (st : PState) : st.store.fp.path = st.fp.path := rfl

theorem fileContent_set_tree (st : PState) (t : List (String × Entry)) :
    (PState.fileContent { st with tree := t }) = st.fileContent := rfl

/-- In every reachable state the handle's read position sits at the end of
the file, so retrieve reads an empty stream, finds no version key, and
raises VersionMismatchError. -/
theorem retrieve_at_eof (st : PState)
    (h : st.fp.pos = st.fileContent.length) :
    ConfigParser.retrieve st = Except.error Err.versionMismatch := by
  have h1 : (st.fp.readToEnd st.fs).1 = [] := by
    show ((st.fs.read st.fp.path).getD []).drop st.fp.pos = []
    rw [show (st.fs.read st.fp.path).getD [] = st.fileContent from rfl, h,
      List.drop_length]
  unfold ConfigParser.retrieve
  rw [h1]
  rfl

/-- The full effect of ConfigParser.__init__ when the compiled-in version
parses and the caller's seed config builds: the append-positioned handle
reads nothing, so the version check fails, the file at `filename` (created
empty when absent) is archived to `filename ++ ".old"`, a fresh empty file
is opened, and the tree is exactly the seeded one. -/
theorem init_eq (fs : FS) (filename : String)
    (cfg : List (String × EntrySpec)) (version : String)
    (vi : Nat × Nat × Nat) (tree : List (String × Entry))
    (h1 : parseVersionInfo version = Except.ok vi)
    (h2 : buildConfig cfg = Except.ok tree) :
    ConfigParser.init fs filename cfg version = Except.ok
      { tree := tree, path := filename, version := formatVersion vi,
        vinfo := vi, fp := ⟨filename, 0⟩,
        fs := ((fs.erase filename).writeFile (filename ++ ".old")
          ((fs.read filename).getD [])).writeFile filename [] } := by
  have hne : filename ≠ filename ++ ".old" :=
    fun hh => append_old_ne filename (Eq.symm hh)
  unfold ConfigParser.init
  rw [h1, h2]
  cases hr : fs.read filename with
  | none =>
    have hopen : fs.openAb filename =
        (fs.writeFile filename [], ⟨filename, 0⟩) := by
      unfold FS.openAb; rw [hr]
    simp only [hopen]
    have heof : ConfigParser.retrieve
        { tree := tree, path := filename, version := formatVersion vi,
          vinfo := vi, fp := ⟨filename, 0⟩,
          fs := fs.writeFile filename [] } =
        Except.error Err.versionMismatch := by
      apply retrieve_at_eof
      show (0 : Nat) =
        (((fs.writeFile filename []).read filename).getD []).length
      rw [FS.read_write_same]
      rfl
    unfold ConfigParser.retrieveFileconfig
    rw [heof]
    have hren : (fs.writeFile filename []).rename filename
        (filename ++ ".old") =
        (fs.erase filename).writeFile (filename ++ ".old") [] := by
      unfold FS.rename
      rw [FS.read_write_same, FS.erase_write_same]
    simp only [hren]
    have hopen2 : ((fs.erase filename).writeFile (filename ++ ".old") []).openAb
        filename =
        (((fs.erase filename).writeFile (filename ++ ".old") []).writeFile
          filename [], ⟨filename, 0⟩) := by
      unfold FS.openAb
      rw [FS.read_write_ne _ _ _ _ hne, FS.read_erase_same]
    simp only [hopen2]
    rfl
  | some c =>
    have hopen : fs.openAb filename = (fs, ⟨filename, c.length⟩) := by
      unfold FS.openAb; rw [hr]
    simp only [hopen]
    have heof : ConfigParser.retrieve
        { tree := tree, path := filename, version := formatVersion vi,
          vinfo := vi, fp := ⟨filename, c.length⟩, fs := fs } =
        Except.error Err.versionMismatch := by
      apply retrieve_at_eof
      show c.length = ((fs.read filename).getD []).length
      rw [hr]
      rfl
    unfold ConfigParser.retrieveFileconfig
    rw [heof]
    have hren : fs.rename filename (filename ++ ".old") =
        (fs.erase filename).writeFile (filename ++ ".old") c := by
      unfold FS.rename; rw [hr]
    simp only [hren]
    have hopen2 : ((fs.erase filename).writeFile (filename ++ ".old") c).openAb
        filename =
        (((fs.erase filename).writeFile (filename ++ ".old") c).writeFile
          filename [], ⟨filename, 0⟩) := by
      unfold FS.openAb
      rw [FS.read_write_ne _ _ _ _ hne, FS.read_erase_same]
    simp only [hopen2]
    rfl

/-- Iterating store appends one identical serialization per call and leaves
the tree, the version and the handle's path unchanged. -/
theorem store_iter (st : PState) (n : Nat) :
    (PState.store^[n] st).version = st.version ∧
    (PState.store^[n] st).tree = st.tree ∧
    (PState.store^[n] st).fp.path = st.fp.path ∧
    (PState.store^[n] st).fileContent = st.fileContent ++
      List.replicate n (serOf st) := by
  induction n with
  | zero => simp
  | succ k ih =>
    obtain ⟨hv, ht, hp, hc⟩ := ih
    rw [Function.iterate_succ_apply']
    refine ⟨?_, ?_, ?_, ?_⟩
    · rw [store_version, hv]
    · rw [store_tree, ht]
    · rw [store_fpPath, hp]
    · rw [store_fileContent, hc, hv, ht, List.replicate_succ',
        List.append_assoc]
      rfl

/-- C1: the round-trip property of the spec fails on the code.  The parser
below is seeded with a Str option `mode` (default "fast"), the option is
set to "slow", store() writes the file — whose single serialization indeed
records mode = slow — yet a fresh ConfigParser constructed over that very
file with the same seed answers "fast": its append-positioned handle reads
nothing, the version check fails and recovery discards the file. -/
theorem claimOneRoundTripFails :
    c1St3.getAt [] "mode" = some (Value.str "slow") ∧
    c1St3.fileContent = [(⟨some "2.0.0", [("", [("mode", some "slow")])]⟩ : Ser)] ∧
    c1St4.getAt [] "mode" = some (Value.str "fast") ∧
    ¬(some (Value.str "fast") = some (Value.str "slow")) :=
  ⟨rfl, rfl, rfl, by decide⟩

/-- C2 counterexample: a file declaring version 2.0.1 against a compiled-in
2.0.0 differs only in the patch component, yet constructing a parser over
it still triggers recovery — the file is renamed to cfg.old and a fresh
empty file appears at cfg — refuting "a patch-only difference does not
trigger recovery". -/
theorem claimTwoCounter :
    parseVersionInfo "2.0.1" = Except.ok (2, 0, 1) ∧
    parseVersionInfo "2.0.0" = Except.ok (2, 0, 0) ∧
    c2St.fs.read "cfg.old" = some [{ version := some "2.0.1", blocks := [] }] ∧
    c2St.fs.read "cfg" = some [] :=
  ⟨rfl, rfl, rfl, rfl⟩

/-- C2 (amended): on every construction — whatever the file's declared
version, matching, patch-only different, or absent — the existing file is
archived intact at <path>.old, a fresh empty file is opened at the original
path, the store holds exactly the caller-seeded entries, and no
VersionMismatchError propagates (construction succeeds).  The version check
itself compares only (major, minor), but the append-positioned handle never
delivers it a version to compare. -/
theorem claimTwoRecovery (fs : FS) (filename : String)
    (cfg : List (String × EntrySpec)) (version : String)
    (vi : Nat × Nat × Nat) (tree : List (String × Entry))
    (h1 : parseVersionInfo version = Except.ok vi)
    (h2 : buildConfig cfg = Except.ok tree) :
    isOkB (ConfigParser.init fs filename cfg version) = true ∧
    FS.read (okD (ConfigParser.init fs filename cfg version)).fs
      (filename ++ ".old") = some ((fs.read filename).getD []) ∧
    FS.read (okD (ConfigParser.init fs filename cfg version)).fs filename =
      some [] ∧
    (okD (ConfigParser.init fs filename cfg version)).tree = tree := by
  rw [init_eq fs filename cfg version vi tree h1 h2]
  refine ⟨rfl, ?_, ?_, rfl⟩
  · show (((fs.erase filename).writeFile (filename ++ ".old")
      ((fs.read filename).getD [])).writeFile filename []).read
      (filename ++ ".old") = some ((fs.read filename).getD [])
    rw [FS.read_write_ne _ _ _ _ (append_old_ne filename), FS.read_write_same]
  · show (((fs.erase filename).writeFile (filename ++ ".old")
      ((fs.read filename).getD [])).writeFile filename []).read filename =
      some []
    rw [FS.read_write_same]

theorem claimTwoRecovery_witness :
    isOkB (ConfigParser.init c2Fs "cfg" [] "2.0.0") = true ∧
    FS.read (okD (ConfigParser.init c2Fs "cfg" [] "2.0.0")).fs "cfg.old" =
      some ((c2Fs.read "cfg").getD []) ∧
    FS.read (okD (ConfigParser.init c2Fs "cfg" [] "2.0.0")).fs "cfg" =
      some [] ∧
    (okD (ConfigParser.init c2Fs "cfg" [] "2.0.0")).tree = [] :=
  claimTwoRecovery c2Fs "cfg" [] "2.0.0" (2, 0, 0) [] rfl rfl

/-- C3 counterexample: after two store() calls the backing file holds two
appended serializations, not "exactly one serialization of the current
tree" — nothing truncates the append-mode handle. -/
theorem claimThreeCounter :
    (c3St.store.store).fileContent.length = 2 ∧
    ¬((c3St.store.store).fileContent.length = 1) ∧
    (c3St.store.store).fileContent.map Ser.version =
      [some "2.0.0", some "2.0.0"] :=
  ⟨rfl, by decide, rfl⟩

/-- C3 (amended): every store() call serializes the entire tree, always
with the version header equal to the compiled-in string, and appends it to
the backing file; the file is never truncated, so n consecutive store()
calls leave the previous content followed by n copies of the
serialization. -/
theorem claimThreeStoreAppends (st : PState) (n : Nat) :
    st.store.fileContent = st.fileContent ++ [serOf st] ∧
    (PState.store^[n] st).fileContent = st.fileContent ++
      List.replicate n (serOf st) :=
  ⟨store_fileContent st, (store_iter st n).2.2.2⟩

/-- C4: setting an option whose non-empty allow-list excludes the
normalized value raises InvalidValueError; the raise precedes the value
assignment and the store call, so the option is unchanged and no
persistence happens (the error return carries neither a new option state
nor a store request). -/
theorem claimFourAllowed (o : ConfigOption) (raw norm : Value) (b : Bool)
    (h1 : normalizeValue o.type raw = Except.ok norm)
    (h2 : o.allowedValues.isEmpty = false)
    (h3 : pyMem norm o.allowedValues = false) :
    ConfigOption.set o raw b = Except.error Err.invalidValue := by
  unfold ConfigOption.set
  rw [h1]
  simp [h2, h3]

theorem claimFourAllowed_witness :
    ConfigOption.set c4Opt (Value.str "turbo") true =
      Except.error Err.invalidValue :=
  claimFourAllowed c4Opt (Value.str "turbo") (Value.str "turbo") true
    rfl rfl rfl

/-- C5: setting an option to a raw input whose normalized value equals the
current one (and is admissible when an allow-list is present) is a no-op:
the returned option is the very same state and the store flag is false,
regardless of the persist argument. -/
theorem claimFiveNoOp (o : ConfigOption) (raw norm : Value) (b : Bool)
    (h1 : normalizeValue o.type raw = Except.ok norm)
    (h2 : o.allowedValues.isEmpty = true ∨ pyMem norm o.allowedValues = true)
    (h3 : pyEq o.value norm = true) :
    ConfigOption.set o raw b = Except.ok (o, false) := by
  unfold ConfigOption.set
  rw [h1]
  rcases h2 with h2 | h2
  · simp [h2, h3]
  · simp [h2, h3]

theorem claimFiveNoOp_witness :
    ConfigOption.set c4Opt (Value.str "fast") true = Except.ok (c4Opt, false) :=
  claimFiveNoOp c4Opt (Value.str "fast") (Value.str "fast") true rfl
    (Or.inr rfl) rfl

/-- C6 counterexample: add_option performs no separator check — inserting
an option named "a:b" (which contains the reserved ':') succeeds, refuting
the claim that every inserting operation rejects such names. -/
theorem claimSixCounter :
    ConfigSection.addOption [] "a:b" (Value.str "x") Option.none Option.none
      [] Option.none = Except.ok [("a:b", Entry.opt ⟨InputType.Str,
        Value.str "x", Value.str "x", [], "A:b", ""⟩)] ∧
    containsChar "a:b" ':' = true :=
  ⟨rfl, rfl⟩

/-- C6 (amended): only add_section rejects a name containing the reserved
separator ':' with InvalidValueError; add_option performs no such check, so
the no-separator invariant holds for section names but not for option
names. -/
theorem claimSixSeparator (entries : List (String × Entry)) (name : String)
    (config : List (String × EntrySpec)) (label desc : Option String)
    (h : containsChar name ':' = true) :
    ConfigSection.addSection entries name config label desc =
      Except.error Err.invalidValue := by
  simp [ConfigSection.addSection, h]

theorem claimSixSeparator_witness :
    ConfigSection.addSection [] "a:b" [] Option.none Option.none =
      Except.error Err.invalidValue :=
  claimSixSeparator [] "a:b" [] Option.none Option.none rfl

/-- Case-insensitive key presence depends only on the lowercased name. -/
theorem hasKeyCI_of_toLower_eq (entries : List (String × Entry))
    (n1 n2 : String) (h : pyLower n1 = pyLower n2) :
    hasKeyCI entries n2 = hasKeyCI entries n1 := by
  unfold hasKeyCI lookupLower
  rw [← h]

/-- C7 counterexample: after add_option inserted "A:b" (legal — add_option
has no separator check), adding "a:B" — the same name up to case — via
add_section raises InvalidValueError, not AlreadyExistsKeyError: the
separator check precedes the duplicate check. -/
theorem claimSevenCounter :
    ConfigSection.addOption [] "A:b" (Value.str "x") Option.none Option.none
      [] Option.none = Except.ok c7Entries ∧
    ¬("A:b" = "a:B") ∧
    pyLower "A:b" = pyLower "a:B" ∧
    ConfigSection.addSection c7Entries "a:B" [] Option.none Option.none =
      Except.error Err.invalidValue ∧
    ¬(Err.invalidValue = Err.alreadyExists) :=
  ⟨rfl, by decide, rfl, rfl, by decide⟩

/-- C7 (amended): once a name n1 is present in a section, inserting any n2
differing from n1 only in letter case raises AlreadyExistsKeyError — via
add_option unconditionally, and via add_section provided n2 does not
contain the separator ':' (whose check comes first).  The raise happens
before any insertion, so the section is unchanged. -/
theorem claimSevenCaseDup (entries : List (String × Entry)) (n1 n2 : String)
    (value : Value) (label desc : Option String) (allowed : List Value)
    (inputType : Option InputType) (config : List (String × EntrySpec))
    (h0 : ¬(n1 = n2)) (h1 : pyLower n1 = pyLower n2)
    (h2 : hasKeyCI entries n1 = true) :
    ConfigSection.addOption entries n2 value label desc allowed inputType =
      Except.error Err.alreadyExists ∧
    (containsChar n2 ':' = false →
      ConfigSection.addSection entries n2 config label desc =
        Except.error Err.alreadyExists) := by
  have h3 : hasKeyCI entries n2 = true := by
    rw [hasKeyCI_of_toLower_eq entries n1 n2 h1]
    exact h2
  constructor
  · simp [ConfigSection.addOption, h3]
  · intro h4
    simp [ConfigSection.addSection, h4, h3]

theorem claimSevenCaseDup_witness :
    ConfigSection.addOption c7CleanEntries "FOO" (Value.str "y") Option.none
      Option.none [] Option.none = Except.error Err.alreadyExists ∧
    ConfigSection.addSection c7CleanEntries "FOO" [] Option.none Option.none =
      Except.error Err.alreadyExists := by
  have h := claimSevenCaseDup c7CleanEntries "Foo" "FOO" (Value.str "y")
    Option.none Option.none [] Option.none [] (by decide) rfl rfl
  exact ⟨h.1, h.2 rfl⟩

/-- A successful add_section changes the backing file's length by exactly
the source's persistence condition `store or (store is None and config)`. -/
theorem addSectionAt_fileLen (st : PState) (path : List String)
    (name : String) (config : List (String × EntrySpec))
    (label desc : Option String) (store : Option Bool) (st' : PState)
    (h : st.addSectionAt path name config label desc store = Except.ok st') :
    st'.fileContent.length = st.fileContent.length +
      (if store.getD false || (store.isNone && !config.isEmpty) then 1
       else 0) := by
  unfold PState.addSectionAt at h
  split at h
  · exact Except.noConfusion h
  · cases hm : modifyEntries st.tree path
        (fun es => ConfigSection.addSection es name config label desc) with
    | error e => rw [hm] at h; exact Except.noConfusion h
    | ok tree' =>
      simp only [hm] at h
      split at h
      next hcond =>
        injection h with h2
        subst h2
        rw [if_pos hcond, store_fileContent, fileContent_set_tree,
          List.length_append]
        simp
      next hcond =>
        injection h with h2
        subst h2
        rw [if_neg hcond, fileContent_set_tree]
        omega

/-- A successful add_option changes the backing file's length by exactly
its persist flag. -/
theorem addOptionAt_fileLen (st : PState) (path : List String)
    (name : String) (value : Value) (label desc : Option String)
    (allowed : List Value) (inputType : Option InputType) (store : Bool)
    (st' : PState)
    (h : st.addOptionAt path name value label desc allowed inputType store =
      Except.ok st') :
    st'.fileContent.length = st.fileContent.length +
      (if store then 1 else 0) := by
  unfold PState.addOptionAt at h
  cases hm : modifyEntries st.tree path
      (fun es => ConfigSection.addOption es name value label desc allowed
        inputType) with
  | error e => rw [hm] at h; exact Except.noConfusion h
  | ok tree' =>
    simp only [hm] at h
    split at h
    next hcond =>
      injection h with h2
      subst h2
      rw [if_pos hcond, store_fileContent, fileContent_set_tree,
        List.length_append]
      simp
    next hcond =>
      injection h with h2
      subst h2
      rw [if_neg hcond, fileContent_set_tree]
      omega

/-- C8: the persistence-default asymmetry.  add_section with persist unset
stores exactly when the supplied seed config is non-empty; with persist
given explicitly it stores exactly when the flag is true; add_option stores
exactly when its persist flag (defaulting to true in the source) is set.
Each store appends one serialization, so the store-call count is the growth
of the backing file. -/
theorem claimEightPersist (st : PState) (path : List String) (name : String)
    (config : List (String × EntrySpec)) (label desc : Option String)
    (value : Value) (allowed : List Value) (inputType : Option InputType) :
    (∀ st', st.addSectionAt path name config label desc Option.none =
        Except.ok st' →
      st'.fileContent.length = st.fileContent.length +
        (if config.isEmpty then 0 else 1)) ∧
    (∀ (b : Bool) st', st.addSectionAt path name config label desc (some b) =
        Except.ok st' →
      st'.fileContent.length = st.fileContent.length +
        (if b then 1 else 0)) ∧
    (∀ (b : Bool) st', st.addOptionAt path name value label desc allowed
        inputType b = Except.ok st' →
      st'.fileContent.length = st.fileContent.length +
        (if b then 1 else 0)) := by
  refine ⟨?_, ?_, ?_⟩
  · intro st' h
    have hh := addSectionAt_fileLen st path name config label desc
      Option.none st' h
    cases hce : config.isEmpty with
    | false => simp [hce] at hh ⊢; exact hh
    | true => simp [hce] at hh ⊢; exact hh
  · intro b st' h
    have hh := addSectionAt_fileLen st path name config label desc
      (some b) st' h
    cases b with
    | false => simpa using hh
    | true => simpa using hh
  · intro b st' h
    exact addOptionAt_fileLen st path name value label desc allowed
      inputType b st' h

theorem claimEightPersist_witness :
    (okD (c8St.addSectionAt [] "network" c8Cfg Option.none Option.none
      Option.none)).fileContent.length = c8St.fileContent.length + 1 ∧
    (okD (c8St.addSectionAt [] "network" c8Cfg Option.none Option.none
      (some false))).fileContent.length = c8St.fileContent.length + 0 ∧
    (okD (c8St.addOptionAt [] "network" (Value.str "v") Option.none
      Option.none [] Option.none true)).fileContent.length =
      c8St.fileContent.length + 1 := by
  have h := claimEightPersist c8St [] "network" c8Cfg Option.none Option.none
    (Value.str "v") [] Option.none
  exact ⟨h.1 _ rfl, h.2.1 false _ rfl, h.2.2 true _ rfl⟩

/-- C9: construction never fails because of the backing file's content.
For every filesystem — whatever bytes sit at the path — a parser whose
compiled-in version parses and whose seed config builds is constructed
successfully, and its store carries exactly the caller-seeded entries
(retrieve's VersionMismatchError is turned into recovery; every other
exception is logged and swallowed by _retrieve_fileconfig). -/
theorem claimNineNoRaise (fs : FS) (filename : String)
    (cfg : List (String × EntrySpec)) (version : String)
    (vi : Nat × Nat × Nat) (tree : List (String × Entry))
    (h1 : parseVersionInfo version = Except.ok vi)
    (h2 : buildConfig cfg = Except.ok tree) :
    isOkB (ConfigParser.init fs filename cfg version) = true ∧
    (okD (ConfigParser.init fs filename cfg version)).tree = tree := by
  rw [init_eq fs filename cfg version vi tree h1 h2]
  exact ⟨rfl, rfl⟩

theorem claimNineNoRaise_witness :
    isOkB (ConfigParser.init c9Fs "cfg" c1Seed "2.0.0") = true ∧
    (okD (ConfigParser.init c9Fs "cfg" c1Seed "2.0.0")).tree = c1Tree :=
  claimNineNoRaise c9Fs "cfg" c1Seed "2.0.0" (2, 0, 0) c1Tree rfl rfl

/-- C10: replaying a parsed file key in _make_options.  A key naming an
already-registered option goes through section.set with the persist flag
left at its default true, so a value that normalizes to something different
(and admissible) updates the option and immediately appends one full
serialization to the file; an unknown key takes the KeyError fallback,
add_option with store=False, which registers a fresh Str option and writes
nothing. -/
theorem claimTenReplayPersists (st : PState) (name s k : String)
    (o : ConfigOption) (norm : Value)
    (h1 : lookupLower st.tree name = some (k, Entry.opt o))
    (h2 : normalizeValue o.type (Value.str s) = Except.ok norm)
    (h3 : o.allowedValues.isEmpty = true ∨ pyMem norm o.allowedValues = true)
    (h4 : pyEq o.value norm = false) :
    ConfigParser.makeOptions st [] [(name, some s)] =
      Except.ok (PState.store { st with
        tree := setItemCI st.tree k (Entry.opt { o with value := norm }) }) ∧
    (∀ m : String, lookupLower st.tree m = Option.none →
      ConfigParser.makeOptions st [] [(m, some s)] =
        Except.ok { st with tree := setItemCI st.tree m (Entry.opt
          ⟨InputType.Str, Value.str s, Value.str s, [], pyCapitalize m,
            ""⟩) }) := by
  constructor
  · have e1 : (entriesAt st.tree []).bind (fun es => lookupLower es name) =
        some (k, Entry.opt o) := h1
    have hset : ConfigOption.set o (Value.str s) true =
        Except.ok ({ o with value := norm }, true) := by
      unfold ConfigOption.set
      rw [h2]
      rcases h3 with h3 | h3
      · simp [h3, h4]
      · simp [h3, h4]
    have e2 : st.setOptionAt [] name (Value.str s) true =
        Except.ok (PState.store { st with
          tree := setItemCI st.tree k (Entry.opt { o with value := norm }) }) := by
      unfold PState.setOptionAt
      simp only [e1, hset, modifyEntries]
      rfl
    simp only [ConfigParser.makeOptions, e1, e2]
  · intro m hm
    have e1 : (entriesAt st.tree []).bind (fun es => lookupLower es m) =
        Option.none := hm
    have e3 : ConfigSection.addOption st.tree m (Value.str s) Option.none
        Option.none [] Option.none = Except.ok (setItemCI st.tree m
          (Entry.opt ⟨InputType.Str, Value.str s, Value.str s, [],
            pyCapitalize m, ""⟩)) := by
      unfold ConfigSection.addOption
      rw [show hasKeyCI st.tree m = false by
        unfold hasKeyCI; rw [hm]; rfl]
      rfl
    have e2 : st.addOptionAt [] m (Value.str s) Option.none Option.none []
        Option.none false = Except.ok { st with
          tree := setItemCI st.tree m (Entry.opt ⟨InputType.Str, Value.str s,
            Value.str s, [], pyCapitalize m, ""⟩) } := by
      unfold PState.addOptionAt
      rw [show modifyEntries st.tree [] (fun es => ConfigSection.addOption es
        m (Value.str s) Option.none Option.none [] Option.none) =
          Except.ok (setItemCI st.tree m (Entry.opt ⟨InputType.Str,
            Value.str s, Value.str s, [], pyCapitalize m, ""⟩)) from e3]
      rfl
    simp only [ConfigParser.makeOptions, e1, e2]

theorem claimTenReplayPersists_witness :
    ConfigParser.makeOptions c10St [] [("timeout", some "30")] =
      Except.ok (PState.store { c10St with tree := setItemCI c10St.tree "timeout" c10Entry1 }) ∧
    ConfigParser.makeOptions c10St [] [("retries", some "30")] =
      Except.ok { c10St with tree := setItemCI c10St.tree "retries" c10Entry2 } := by
  have h := claimTenReplayPersists c10St "timeout" "30" "timeout"
    ⟨InputType.Int, Value.int 20, Value.int 20, [], "", ""⟩ (Value.int 30)
    rfl rfl (Or.inl rfl) rfl
  exact ⟨h.1, h.2 "retries" rfl⟩

end PyloadConfig
